import Mathlib

/-
Verification development for the lispers interpreter core.

The Rust sources are shallowly embedded:
- `Expression` mirrors `lispers-core/src/lisp/expression.rs` (the value/AST sum
  type).  Native function pointers (`Expression::Function`) are modelled by the
  enumeration `NativeFn` of the embedded prelude procedures, since a Rust `fn`
  pointer value in this interpreter is always one of the prelude routines (or a
  host extension, which is out of scope); pointer equality becomes equality of
  tags.
- Rust `i64` is modelled as `Int` (no claim below exercises wrap-around), and
  Rust `f64` as `Rat`: every claim below depends only on which `Expression`
  constructor a result carries, never on the value of a float, so IEEE rounding
  is deliberately not modelled.
- The `Environment` of `src/lisp/environment.rs` holds a current
  `EnvironmentLayer`, an optional outer environment, and an
  `Rc<RefCell<EnvironmentLayer>>` shared layer.  The shared layer, the single
  piece of interior-mutable state, is threaded explicitly through evaluation
  (`EvalResult` carries the shared layer out of every step); the lexical chain
  is an immutable value, exactly as `&Environment` makes it in Rust.
- A Rust `HashMap<String, Expression>` is modelled as an association list in
  which a later `set` shadows earlier entries; the observable `get`/`set`
  behaviour is that of the hash map.
- Rust panics (integer division by zero in `prelude_div`; the
  `RefCell` reentrancy guard of `shared_set`, which no sequential execution
  path of this code can trigger) are modelled by the `EvalResult.abort`
  outcome, and exhaustion of the native call stack by unbounded recursion is
  modelled by the explicit fuel parameter of `eval` (`EvalResult.fuelOut`).
-/

namespace Lispers

/-- One host type sitting behind the type-erasure boundary of
`lispers-core/src/lisp/expression.rs`: a carrier together with the
`PartialEq::eq` and `PartialOrd::partial_cmp` of the host type.  Rust's blanket
`impl<T: Debug + Display + AsAny + PartialOrd + PartialEq + Clone> ForeignData
for T` places no lawfulness requirement on these operations (in particular
`eqFn` need not be reflexive: `f64` with `NaN` qualifies). -/
structure HostType where
  Val : Type
  eqFn : Val → Val → Bool
  cmpFn : Val → Val → Option Ordering

/-- The open universe of host types: an index type of dynamic type identities
(Rust `TypeId`, whose comparison is decidable equality) and the host type at
each index. -/
structure HostUniverse where
  Idx : Type
  deceq : DecidableEq Idx
  types : Idx → HostType

/-- `ForeignDataStore`: a type-erased host value, i.e. a dynamic type identity
paired with a value of that host type (Rust `Box<dyn ForeignData>`). -/
def ForeignDataStore (U : HostUniverse) : Type :=
  Σ i : U.Idx, (U.types i).Val

/-- `<dyn ForeignData>::eq_impl` via the blanket impl: downcast `other` to
`self`'s concrete type and compare with the host type's own equality; a
dynamic-type mismatch is `false`, never a panic (the function is total). -/
def eq_impl {U : HostUniverse} (a b : ForeignDataStore U) : Bool :=
  match U.deceq b.1 a.1 with
  | isTrue h => (U.types a.1).eqFn a.2 (h ▸ b.2)
  | isFalse _ => false

/-- `<dyn ForeignData>::partial_cmp_impl` via the blanket impl: downcast and
compare; a dynamic-type mismatch is `none` (no ordering), never a panic. -/
def cmp_impl {U : HostUniverse} (a b : ForeignDataStore U) : Option Ordering :=
  match U.deceq b.1 a.1 with
  | isTrue h => (U.types a.1).cmpFn a.2 (h ▸ b.2)
  | isFalse _ => none

/-- The consuming downcast `Box<dyn Any>::downcast::<T>` used by
`TryFrom<Expression> for ForeignDataWrapper<T>`: succeeds exactly when the
erased value's dynamic type is the requested one. -/
def downcast {U : HostUniverse} (j : U.Idx) (s : ForeignDataStore U) : Option ((U.types j).Val) :=
  match U.deceq s.1 j with
  | isTrue h => some (h ▸ s.2)
  | isFalse _ => none

/-- The native procedures of `lispers-core/src/lisp/prelude.rs` that the
claims under verification exercise.  A Rust `fn(&Environment, Expression) ->
Result<Expression, EvalError>` value is one of these routines; `PartialEq` on
`Expression::Function` is pointer identity, i.e. equality of tags. -/
inductive NativeFn : Type where
  | add
  | div
  | defunFn
  | defineFn
  | letFn
  | setFn
deriving DecidableEq

/-- The value/AST sum type `Expression` of
`lispers-core/src/lisp/expression.rs`, parametric over the open universe of
host types carried by the `ForeignExpression` variant. -/
inductive Expression (U : HostUniverse) : Type where
  | Cell : Expression U → Expression U → Expression U
  | Function : NativeFn → Expression U
  | AnonymousFunction : List String → Expression U → Expression U
  | ForeignExpression : ForeignDataStore U → Expression U
  | Quote : Expression U → Expression U
  | Symbol : String → Expression U
  | Integer : Int → Expression U
  | Float : Rat → Expression U
  | String : String → Expression U
  | True : Expression U
  | Nil : Expression U

/-- The evaluation error sum type `EvalError` of `src/lisp/eval.rs`. -/
inductive EvalError (U : HostUniverse) : Type where
  | SymbolNotBound : String → EvalError U
  | NotAFunction : Expression U → EvalError U
  | NotANumber : Expression U → EvalError U
  | ArgumentError : String → EvalError U
  | TypeError : String → EvalError U
  | NotASymbol : Expression U → EvalError U

/-- `EnvironmentLayer` of `src/lisp/environment.rs`: a mapping from symbol
names to expressions (`HashMap<String, Expression>`), modelled as an
association list where the most recent `set` wins. -/
abbrev EnvironmentLayer (U : HostUniverse) : Type := List (String × Expression U)

/-- `EnvironmentLayer::set` (`HashMap::insert`: last write wins). -/
def EnvironmentLayer.set {U : HostUniverse} (l : EnvironmentLayer U) (key : String)
    (value : Expression U) : EnvironmentLayer U :=
  (key, value) :: l

/-- `EnvironmentLayer::get` (`HashMap::get(...).cloned()`). -/
def EnvironmentLayer.get {U : HostUniverse} : EnvironmentLayer U → String → Option (Expression U)
  | [], _ => none
  | (k, v) :: rest, key => if k = key then some v else EnvironmentLayer.get rest key

/-- The lexical part of `Environment` from `src/lisp/environment.rs`: the
current layer plus an optional outer environment.  The `shared` field
(`Rc<RefCell<EnvironmentLayer>>`, identical for every environment of one
family) is passed alongside as explicit state. -/
inductive Environment (U : HostUniverse) : Type where
  | mk : EnvironmentLayer U → Option (Environment U) → Environment U

/-- The current layer of an environment. -/
def Environment.layer {U : HostUniverse} : Environment U → EnvironmentLayer U
  | .mk l _ => l

/-- The outer (fallback) environment, when any. -/
def Environment.outer {U : HostUniverse} : Environment U → Option (Environment U)
  | .mk _ o => o

/-- `Environment::overlay`: push a pre-built layer; the new environment's outer
chain is the given environment, unchanged. -/
def Environment.overlay {U : HostUniverse} (env : Environment U) (l : EnvironmentLayer U) :
    Environment U :=
  .mk l (some env)

/-- `Environment::mk_inner`: push an empty layer. -/
def Environment.mk_inner {U : HostUniverse} (env : Environment U) : Environment U :=
  .mk [] (some env)

/-- `Environment::set`: write the current lexical layer (functional update of
the environment value, mirroring `&mut self`). -/
def Environment.set {U : HostUniverse} : Environment U → String → Expression U → Environment U
  | .mk l o, key, value => .mk (EnvironmentLayer.set l key value) o

/-- `Environment::shared_set`: write the shared layer.  The Rust
`RefCell::try_borrow_mut` reentrancy guard cannot fire on any sequential path
through this code (no borrow of the shared layer is live across a call), so
the write is modelled as total. -/
def Environment.shared_set {U : HostUniverse} (shared : EnvironmentLayer U) (key : String)
    (value : Expression U) : EnvironmentLayer U :=
  EnvironmentLayer.set shared key value

/-- `Environment::layer_get`: resolve through the lexical chain only, skipping
the shared layer. -/
def Environment.layer_get {U : HostUniverse} : Environment U → String → Option (Expression U)
  | .mk l o, key =>
    match EnvironmentLayer.get l key with
    | some e => some e
    | none =>
      match o with
      | some out => Environment.layer_get out key
      | none => none

/-- `Environment::get`: current layer, then the shared layer, then the outer
chain via `layer_get`. -/
def Environment.get {U : HostUniverse} (env : Environment U) (shared : EnvironmentLayer U)
    (key : String) : Option (Expression U) :=
  match EnvironmentLayer.get env.layer key with
  | some e => some e
  | none =>
    match EnvironmentLayer.get shared key with
    | some e => some e
    | none =>
      match env.outer with
      | some out => Environment.layer_get out key
      | none => none

/-- `From<Vec<Expression>> for Expression`: a sequence becomes a
Nil-terminated chain of `Cell`s, in order. -/
def exprOfList {U : HostUniverse} : List (Expression U) → Expression U
  | [] => .Nil
  | e :: rest => .Cell e (exprOfList rest)

/-- A chain of `Cell`s over the heads in `l`, ending in the (arbitrary) tail
value `t`; with `t = .Nil` this is a proper list. -/
def chainOf {U : HostUniverse} (l : List (Expression U)) (t : Expression U) : Expression U :=
  match l with
  | [] => t
  | e :: rest => .Cell e (chainOf rest t)

/-- One step of `CellIterator::next` from `src/lisp/eval.rs`.  The state is
`self.expr : Option<Expression>`; the returned pair is (the yielded item, if
any; the successor state).  A `Cell` yields `Ok(head)` and advances to the
tail; `Nil` ends the iteration; anything else yields exactly one
`Err(TypeError)` and leaves the state empty, so nothing further is yielded. -/
def CellIterator.next {U : HostUniverse} :
    Option (Expression U) →
    Option (Except (EvalError U) (Expression U)) × Option (Expression U)
  | some (.Cell head tail) => (some (.ok head), some tail)
  | some .Nil => (none, none)
  | some _ => (some (.error (.TypeError "Expected a cell or nil")), none)
  | none => (none, none)

/-- Drive `CellIterator.next` for `n` steps from a given state and collect
every yielded item (steps that yield nothing contribute nothing). -/
def iterOut {U : HostUniverse} :
    Option (Expression U) → Nat → List (Except (EvalError U) (Expression U))
  | _, 0 => []
  | st, n + 1 =>
    match CellIterator.next st with
    | (some item, st2) => item :: iterOut st2 n
    | (none, st2) => iterOut st2 n

/-- `TryFrom<Expression> for Vec<Expression>`:
`CellIterator::new(value).collect()`, which short-circuits on the first
`Err`. -/
def expr_to_list {U : HostUniverse} : Expression U → Except (EvalError U) (List (Expression U))
  | .Cell head tail =>
    match expr_to_list tail with
    | .ok rest => .ok (head :: rest)
    | .error e => .error e
  | .Nil => .ok []
  | _ => .error (.TypeError "Expected a cell or nil")

/-- `TryFrom<Expression> for [Expression; N]`: collect to a `Vec`, then the
`Vec → array` conversion fails with an arity error carrying the expected and
actual counts unless the length is exactly `N`.  The fixed-size array is
modelled as the list (of length `N` on success). -/
def expr_to_array {U : HostUniverse} (N : Nat) (e : Expression U) :
    Except (EvalError U) (List (Expression U)) :=
  match expr_to_list e with
  | .error err => .error err
  | .ok l =>
    if l.length = N then .ok l
    else .error (.ArgumentError ("Expected " ++ toString N ++ " arguments, got " ++
      toString l.length))

/-- The `let [a, b] = expr.try_into()?` destructuring used by the binary
prelude procedures: the `[Expression; 2]` decode with its two elements. -/
def expr_to_array2 {U : HostUniverse} (e : Expression U) :
    Except (EvalError U) (Expression U × Expression U) :=
  match expr_to_list e with
  | .error err => .error err
  | .ok [a, b] => .ok (a, b)
  | .ok l => .error (.ArgumentError ("Expected 2 arguments, got " ++ toString l.length))

/-- The `[Expression; 3]` decode used by `prelude_defun`. -/
def expr_to_array3 {U : HostUniverse} (e : Expression U) :
    Except (EvalError U) (Expression U × Expression U × Expression U)  :=
  match expr_to_list e with
  | .error err => .error err
  | .ok [a, b, c] => .ok (a, b, c)
  | .ok l => .error (.ArgumentError ("Expected 3 arguments, got " ++ toString l.length))

/-- `TryFrom<Expression> for (Expression, Expression)`: any `Cell` — whatever
its tail — destructures into its two components; any non-`Cell` is a
`TypeError`. -/
def expr_to_pair {U : HostUniverse} : Expression U →
    Except (EvalError U) (Expression U × Expression U)
  | .Cell a b => .ok (a, b)
  | _ => .error (.TypeError "Expression must be a Cell")

/-- The outcome of one evaluation step together with the shared layer it
leaves behind.  `ok`/`err` are the two sides of the Rust
`Result<Expression, EvalError>`; `abort` models a Rust panic (a process
abort, not a value); `fuelOut` models exhaustion of the native call stack by
recursion too deep for the explicit fuel. -/
inductive EvalResult (U : HostUniverse) : Type where
  | ok : Expression U → EnvironmentLayer U → EvalResult U
  | err : EvalError U → EnvironmentLayer U → EvalResult U
  | abort : String → EvalResult U
  | fuelOut : EvalResult U

/-- Outcome of the `let`-binding collection loop: the accumulated binding
layer plus the shared layer, or a failure. -/
inductive LoopResult (U : HostUniverse) : Type where
  | ok : EnvironmentLayer U → EnvironmentLayer U → LoopResult U
  | err : EvalError U → EnvironmentLayer U → LoopResult U
  | abort : String → LoopResult U
  | fuelOut : LoopResult U

/-- The binding loop body of `dispatch_anonymous_function`: starting from the
fresh empty overlay, `overlay.set(symbol, arg)` for each zipped
(argument, parameter) pair.  `zip` truncates at the shorter list, exactly as
`Iterator::zip` does; the caller has already equal-length-checked. -/
def bind_arguments {U : HostUniverse} (args : List (Expression U)) (symbols : List String) :
    EnvironmentLayer U :=
  (List.zip args symbols).foldl (fun acc p => EnvironmentLayer.set acc p.2 p.1) []

/-- The parameter-list decode shared by `prelude_lambda`/`prelude_defun`: every
element must be a `Symbol`, else the first offender is a `NotASymbol` error
(the `collect::<Result<Vec<String>, _>>` short-circuit). -/
def symbols_of_exprs {U : HostUniverse} : List (Expression U) → Except (EvalError U) (List String)
  | [] => .ok []
  | .Symbol s :: rest =>
    match symbols_of_exprs rest with
    | .ok syms => .ok (s :: syms)
    | .error e => .error e
  | x :: _ => .error (.NotASymbol x)

/-- `prelude_defun`: decode `[name, args, body]`, require `name` and every
parameter to be symbols, build the `AnonymousFunction`, write it to the shared
layer under `name`, and return it.  It calls `eval` nowhere, so it needs no
fuel. -/
def prelude_defun {U : HostUniverse} (_env : Environment U) (sh : EnvironmentLayer U)
    (expr : Expression U) : EvalResult U :=
  match expr_to_array3 expr with
  | .error e => .err e sh
  | .ok (name, args, body) =>
    match name with
    | .Symbol s =>
      match expr_to_list args with
      | .error e => .err e sh
      | .ok argExprs =>
        match symbols_of_exprs argExprs with
        | .error e => .err e sh
        | .ok argument_symbols =>
          let f := Expression.AnonymousFunction argument_symbols body
          .ok f (Environment.shared_set sh s f)
    | x => .err (.NotASymbol x) sh

mutual

/-- `eval` from `src/lisp/eval.rs`: recursive descent over the expression.  A
`Cell` evaluates its head and dispatches it as a native procedure or closure
(anything else is `NotAFunction`); `Quote` returns its payload unevaluated;
`Symbol` resolves through the environment and evaluates the resolved value
again; every other variant is self-evaluating.  The fuel parameter models the
native call stack: every Rust-level recursive call costs one unit. -/
def eval {U : HostUniverse} :
    Nat → Environment U → EnvironmentLayer U → Expression U → EvalResult U
  | 0, _, _, _ => .fuelOut
  | fuel + 1, env, sh, expr =>
    match expr with
    | .Cell lhs rhs =>
      match eval fuel env sh lhs with
      | .ok (.Function f) sh1 => apply_native fuel f env sh1 rhs
      | .ok (.AnonymousFunction argument_symbols body) sh1 =>
        dispatch_anonymous_function fuel env sh1 argument_symbols body rhs
      | .ok a sh1 => .err (.NotAFunction a) sh1
      | r => r
    | .Quote e => .ok e sh
    | .Symbol s =>
      match Environment.get env sh s with
      | some v => eval fuel env sh v
      | none => .err (.SymbolNotBound s) sh
    | x => .ok x sh

/-- `dispatch_anonymous_function` from `src/lisp/eval.rs`: decode the argument
chain as a list, arity-check it against the parameter symbols, bind each
parameter to the corresponding **unevaluated** argument expression in a fresh
layer overlaying the caller's environment, and evaluate the body there.  (The
source never calls `eval` on the arguments; the message typo "Exprected" is
the source's.) -/
def dispatch_anonymous_function {U : HostUniverse} :
    Nat → Environment U → EnvironmentLayer U → List String → Expression U → Expression U →
    EvalResult U
  | 0, _, _, _, _, _ => .fuelOut
  | fuel + 1, env, sh, argument_symbols, body, args =>
    match expr_to_list args with
    | .error e => .err e sh
    | .ok argList =>
      if argList.length ≠ argument_symbols.length then
        .err (.ArgumentError ("Exprected " ++ toString argument_symbols.length ++
          " arguments, got " ++ toString argList.length)) sh
      else
        eval fuel (env.overlay (bind_arguments argList argument_symbols)) sh body

/-- The native-procedure call `f(env, tail)` of `eval`'s `Function` branch:
dispatch on the function pointer to the prelude routine it denotes. -/
def apply_native {U : HostUniverse} :
    Nat → NativeFn → Environment U → EnvironmentLayer U → Expression U → EvalResult U
  | 0, _, _, _, _ => .fuelOut
  | fuel + 1, f, env, sh, args =>
    match f with
    | .add => prelude_add fuel env sh args
    | .div => prelude_div fuel env sh args
    | .defunFn => prelude_defun env sh args
    | .defineFn => prelude_define fuel env sh args
    | .letFn => prelude_let fuel env sh args
    | .setFn => prelude_set fuel env sh args

/-- `prelude_add` from `lispers-core/src/lisp/prelude.rs`: decode `[a, b]`,
evaluate `a`; an `Integer`/`Float` left operand then evaluates `b` and
promotes (Integer⊗Integer stays Integer, any Float operand makes the result
Float); any operand that is neither is a `NotANumber` error carrying the
offending value (a non-number left operand fails before `b` is evaluated). -/
def prelude_add {U : HostUniverse} :
    Nat → Environment U → EnvironmentLayer U → Expression U → EvalResult U
  | 0, _, _, _ => .fuelOut
  | fuel + 1, env, sh, expr =>
    match expr_to_array2 expr with
    | .error e => .err e sh
    | .ok (a, b) =>
      match eval fuel env sh a with
      | .ok (.Integer ia) sh1 =>
        match eval fuel env sh1 b with
        | .ok (.Integer ib) sh2 => .ok (.Integer (ia + ib)) sh2
        | .ok (.Float fb) sh2 => .ok (.Float ((ia : Rat) + fb)) sh2
        | .ok x sh2 => .err (.NotANumber x) sh2
        | r => r
      | .ok (.Float fa) sh1 =>
        match eval fuel env sh1 b with
        | .ok (.Float fb) sh2 => .ok (.Float (fa + fb)) sh2
        | .ok (.Integer ib) sh2 => .ok (.Float (fa + (ib : Rat))) sh2
        | .ok x sh2 => .err (.NotANumber x) sh2
        | r => r
      | .ok x sh1 => .err (.NotANumber x) sh1
      | r => r

/-- `prelude_div` from `lispers-core/src/lisp/prelude.rs`, same shape as
`prelude_add`.  The Integer⊗Integer branch performs Rust `i64` division
`a / b` (truncated, `Int.tdiv`), which **panics** when `b` is zero — modelled
by `EvalResult.abort` with Rust's panic message.  (The other i64 division
panic, `i64::MIN / -1` overflow, is outside this `Int` model.)  Float division
in Rust never panics. -/
def prelude_div {U : HostUniverse} :
    Nat → Environment U → EnvironmentLayer U → Expression U → EvalResult U
  | 0, _, _, _ => .fuelOut
  | fuel + 1, env, sh, expr =>
    match expr_to_array2 expr with
    | .error e => .err e sh
    | .ok (a, b) =>
      match eval fuel env sh a with
      | .ok (.Integer ia) sh1 =>
        match eval fuel env sh1 b with
        | .ok (.Integer ib) sh2 =>
          if ib = 0 then .abort "attempt to divide by zero"
          else .ok (.Integer (Int.tdiv ia ib)) sh2
        | .ok (.Float fb) sh2 => .ok (.Float ((ia : Rat) / fb)) sh2
        | .ok x sh2 => .err (.NotANumber x) sh2
        | r => r
      | .ok (.Float fa) sh1 =>
        match eval fuel env sh1 b with
        | .ok (.Float fb) sh2 => .ok (.Float (fa / fb)) sh2
        | .ok (.Integer ib) sh2 => .ok (.Float (fa / (ib : Rat))) sh2
        | .ok x sh2 => .err (.NotANumber x) sh2
        | r => r
      | .ok x sh1 => .err (.NotANumber x) sh1
      | r => r

/-- `prelude_define`: decode `[name, value]`, require `name` to be a raw
symbol, evaluate `value`, write it to the shared layer, and return it. -/
def prelude_define {U : HostUniverse} :
    Nat → Environment U → EnvironmentLayer U → Expression U → EvalResult U
  | 0, _, _, _ => .fuelOut
  | fuel + 1, env, sh, expr =>
    match expr_to_array2 expr with
    | .error e => .err e sh
    | .ok (name, value) =>
      match name with
      | .Symbol s =>
        match eval fuel env sh value with
        | .ok v sh1 => .ok v (Environment.shared_set sh1 s v)
        | r => r
      | x => .err (.NotASymbol x) sh

/-- `prelude_set`: decode `[s, e]`, evaluate `s` (it must yield a symbol),
evaluate `e`, write the result to the shared layer under that symbol, and
return it. -/
def prelude_set {U : HostUniverse} :
    Nat → Environment U → EnvironmentLayer U → Expression U → EvalResult U
  | 0, _, _, _ => .fuelOut
  | fuel + 1, env, sh, expr =>
    match expr_to_array2 expr with
    | .error e => .err e sh
    | .ok (s, e) =>
      match eval fuel env sh s with
      | .ok (.Symbol sym) sh1 =>
        match eval fuel env sh1 e with
        | .ok v sh2 => .ok v (Environment.shared_set sh2 sym v)
        | r => r
      | .ok x sh1 => .err (.NotASymbol x) sh1
      | r => r

/-- `prelude_let`: decode `[bindings, body]`, evaluate `bindings`, walk the
resulting chain collecting `(symbol . expr)` bindings (each value evaluated in
the *outer* environment), and evaluate `body` in the caller's environment
overlaid with the collected layer. -/
def prelude_let {U : HostUniverse} :
    Nat → Environment U → EnvironmentLayer U → Expression U → EvalResult U
  | 0, _, _, _ => .fuelOut
  | fuel + 1, env, sh, expr =>
    match expr_to_array2 expr with
    | .error e => .err e sh
    | .ok (bindings, body) =>
      match eval fuel env sh bindings with
      | .ok bv sh1 =>
        match let_loop fuel env sh1 bv [] with
        | .ok lay sh2 => eval fuel (env.overlay lay) sh2 body
        | .err e sh2 => .err e sh2
        | .abort m => .abort m
        | .fuelOut => .fuelOut
      | r => r

/-- The binding-collection loop of `prelude_let`: `CellIterator` over the
evaluated bindings value, mapped through the `(symbol . expr)` decode and
`eval` of each value, collected into the binding layer with the
short-circuiting of `collect::<Result<HashMap<_, _>, _>>` (a malformed tail
is the iterator's single `TypeError`). -/
def let_loop {U : HostUniverse} :
    Nat → Environment U → EnvironmentLayer U → Expression U → EnvironmentLayer U → LoopResult U
  | 0, _, _, _, _ => .fuelOut
  | fuel + 1, env, sh, chain, acc =>
    match chain with
    | .Nil => .ok acc sh
    | .Cell head rest =>
      match expr_to_pair head with
      | .error e => .err e sh
      | .ok (s, e) =>
        match s with
        | .Symbol sym =>
          match eval fuel env sh e with
          | .ok v sh1 => let_loop fuel env sh1 rest (EnvironmentLayer.set acc sym v)
          | .err er sh1 => .err er sh1
          | .abort m => .abort m
          | .fuelOut => .fuelOut
        | _ => .err (.ArgumentError
            "Let bindings must be an alist with elements (symbol . expr)") sh
    | _ => .err (.TypeError "Expected a cell or nil") sh

end

/-- `mk_prelude` restricted to the embedded procedures (the remaining prelude
entries are not exercised by any claim under verification); bindings are
inserted in the source's order. -/
def mk_prelude {U : HostUniverse} : EnvironmentLayer U :=
  let l : EnvironmentLayer U := []
  let l := EnvironmentLayer.set l "+" (.Function .add)
  let l := EnvironmentLayer.set l "/" (.Function .div)
  let l := EnvironmentLayer.set l "defun" (.Function .defunFn)
  let l := EnvironmentLayer.set l "define" (.Function .defineFn)
  let l := EnvironmentLayer.set l "let" (.Function .letFn)
  let l := EnvironmentLayer.set l "set" (.Function .setFn)
  l

/-- `From<ForeignDataWrapper<T>> for Expression`: wrap a host value into the
value model. -/
def wrap {U : HostUniverse} (i : U.Idx) (v : (U.types i).Val) : Expression U :=
  .ForeignExpression ⟨i, v⟩

/-- `TryFrom<Expression> for ForeignDataWrapper<T>`: recover a host value of
the requested type; a dynamic-type mismatch or a non-Foreign value is a
`TypeError` (the source uses the same message for both). -/
def try_from_foreign {U : HostUniverse} (j : U.Idx) (e : Expression U) :
    Except (EvalError U) ((U.types j).Val) :=
  match e with
  | .ForeignExpression f =>
    match downcast j f with
    | some v => .ok v
    | none => .error (.TypeError "Expression is not a ForeignDataWrapper")
  | _ => .error (.TypeError "Expression is not a ForeignDataWrapper")

/-- Claim-side semantics (claim C1, sentence "binds each parameter symbol to
the corresponding **evaluated** argument"): evaluate the argument expressions
in order, threading the shared layer. -/
inductive ArgsResult (U : HostUniverse) : Type where
  | ok : List (Expression U) → EnvironmentLayer U → ArgsResult U
  | err : EvalError U → EnvironmentLayer U → ArgsResult U
  | abort : String → ArgsResult U
  | fuelOut : ArgsResult U

/-- Evaluate each expression of a list in order, threading the shared layer
(claim-side helper for `dispatch_by_value`). -/
def eval_each {U : HostUniverse} :
    Nat → Environment U → EnvironmentLayer U → List (Expression U) → ArgsResult U
  | _, _, sh, [] => .ok [] sh
  | fuel, env, sh, e :: rest =>
    match eval fuel env sh e with
    | .ok v sh1 =>
      match eval_each fuel env sh1 rest with
      | .ok vs sh2 => .ok (v :: vs) sh2
      | r => r
    | .err er sh1 => .err er sh1
    | .abort m => .abort m
    | .fuelOut => .fuelOut

/-- The call semantics claim C1 describes, written from the claim's words (not
from the source): arity-check the argument list, evaluate **each argument
before binding it**, bind parameters to the evaluated arguments in a fresh
layer overlaying the caller's environment, and evaluate the body there.  It is
compared against the source's `dispatch_anonymous_function`, which binds the
arguments unevaluated. -/
def dispatch_by_value {U : HostUniverse} :
    Nat → Environment U → EnvironmentLayer U → List String → Expression U → Expression U →
    EvalResult U
  | 0, _, _, _, _, _ => .fuelOut
  | fuel + 1, env, sh, argument_symbols, body, args =>
    match expr_to_list args with
    | .error e => .err e sh
    | .ok argList =>
      if argList.length ≠ argument_symbols.length then
        .err (.ArgumentError ("Exprected " ++ toString argument_symbols.length ++
          " arguments, got " ++ toString argList.length)) sh
      else
        match eval_each fuel env sh argList with
        | .ok vals sh1 => eval fuel (env.overlay (bind_arguments vals argument_symbols)) sh1 body
        | .err e sh1 => .err e sh1
        | .abort m => .abort m
        | .fuelOut => .fuelOut

/-! ## Tokenizer (`lispers-core/src/parser/tokenizer.rs`)

Each scanner is modelled as a function from the remaining input to an optional
(token, number of characters consumed) pair — the `reader.head` value captured
by `run_scanners` on success.  Failed scanners are dropped by the `filter_map`
and their `head`/`step_back` bookkeeping is unobservable. -/

/-- Sum type of tokens (`lispers-core/src/parser/token.rs`); the `f64` float
payload is carried as `Rat` (see the header note on floats). -/
inductive Token : Type where
  | FloatLiteral : Rat → Token
  | IntLiteral : Int → Token
  | Dot : Token
  | Nil : Token
  | ParClose : Token
  | ParOpen : Token
  | Quote : Token
  | StringLiteral : String → Token
  | Symbol : String → Token
  | True : Token
deriving DecidableEq

/-- Rust `char::is_ascii_digit`. -/
def isAsciiDigit (c : Char) : Bool :=
  48 ≤ c.toNat && c.toNat ≤ 57

/-- Rust `char::is_ascii_alphanumeric`. -/
def isAsciiAlphanumeric (c : Char) : Bool :=
  isAsciiDigit c || (65 ≤ c.toNat && c.toNat ≤ 90) || (97 ≤ c.toNat && c.toNat ≤ 122)

/-- The character set `scan_symbol` accepts: a fixed punctuation set plus
ASCII alphanumerics. -/
def isSymbolChar (c : Char) : Bool :=
  c == '_' || c == '-' || c == '<' || c == '>' || c == '=' || c == '*' || c == '/' ||
  c == '+' || c == '%' || c == '!' || c == '?' || isAsciiAlphanumeric c

/-- The munching loop of `scan_symbol`: take symbol characters until the first
non-symbol character (stepped back) or the end of input. -/
def scan_symbol_munch : List Char → List Char
  | [] => []
  | c :: rest => if isSymbolChar c then c :: scan_symbol_munch rest else []

/-- `scan_symbol`: a non-empty run of symbol characters. -/
def scan_symbol (cs : List Char) : Option (Token × Nat) :=
  let sym := scan_symbol_munch cs
  if sym.length > 0 then some (.Symbol (String.mk sym), sym.length) else none

/-- The body loop of `scan_string_literal`: characters up to the closing
double quote, or failure when the input ends first. -/
def scan_string_take : List Char → Option (List Char)
  | [] => none
  | c :: rest =>
    if c == '"' then some []
    else (scan_string_take rest).map (fun l => c :: l)

/-- `scan_string_literal`: a double-quoted literal with no escape
processing. -/
def scan_string_literal (cs : List Char) : Option (Token × Nat) :=
  match cs with
  | '"' :: rest => (scan_string_take rest).map (fun lit => (.StringLiteral (String.mk lit), lit.length + 2))
  | _ => none

/-- The digit-munching loop shared by `scan_integer`. -/
def digits_munch : List Char → List Char
  | [] => []
  | c :: rest => if isAsciiDigit c then c :: digits_munch rest else []

/-- Decimal value of a digit run. -/
def nat_of_digits (l : List Char) : Nat :=
  l.foldl (fun a c => a * 10 + (c.toNat - 48)) 0

/-- `scan_integer`: a non-empty digit run whose `str::parse::<i64>` succeeds,
i.e. whose value fits in an `i64`. -/
def scan_integer (cs : List Char) : Option (Token × Nat) :=
  let buf := digits_munch cs
  if buf.length > 0 then
    let v := nat_of_digits buf
    if v ≤ 9223372036854775807 then some (.IntLiteral (v : Int), buf.length) else none
  else none

/-- The munching loop of `scan_float`: digits plus at most one dot. -/
def float_munch : List Char → Bool → List Char
  | [], _ => []
  | c :: rest, hasDot =>
    if isAsciiDigit c then c :: float_munch rest hasDot
    else if c == '.' && !hasDot then c :: float_munch rest true
    else []

/-- Rational value of a digit run with at most one dot, mirroring the value
`str::parse::<f64>` produces on such runs (exact rather than rounded; no claim
inspects it). -/
def rat_of_float_chars (buf : List Char) : Rat :=
  let intPart := buf.takeWhile (fun c => c != '.')
  let fracPart := (buf.dropWhile (fun c => c != '.')).drop 1
  (nat_of_digits intPart : Rat) + (nat_of_digits fracPart : Rat) / ((10 : Rat) ^ fracPart.length)

/-- `scan_float`: a non-empty digit-and-dot run that contains the dot and
parses as `f64`; on runs drawn from digits and at most one dot the parse fails
exactly when there is no digit at all (the lone "."). -/
def scan_float (cs : List Char) : Option (Token × Nat) :=
  let buf := float_munch cs false
  if buf.length > 0 && buf.contains '.' && buf.any isAsciiDigit then
    some (.FloatLiteral (rat_of_float_chars buf), buf.length)
  else none

/-- `scan_true`: the exact four characters of the `true` keyword. -/
def scan_true (cs : List Char) : Option (Token × Nat) :=
  match cs with
  | 't' :: 'r' :: 'u' :: 'e' :: _ => some (.True, 4)
  | _ => none

/-- `scan_quote`: a single `'`. -/
def scan_quote (cs : List Char) : Option (Token × Nat) :=
  match cs with
  | '\'' :: _ => some (.Quote, 1)
  | _ => none

/-- `scan_dot`: a single `.`. -/
def scan_dot (cs : List Char) : Option (Token × Nat) :=
  match cs with
  | '.' :: _ => some (.Dot, 1)
  | _ => none

/-- `scan_nil`: the exact three characters of the `nil` keyword. -/
def scan_nil (cs : List Char) : Option (Token × Nat) :=
  match cs with
  | 'n' :: 'i' :: 'l' :: _ => some (.Nil, 3)
  | _ => none

/-- `scan_par_close`: a single `)`. -/
def scan_par_close (cs : List Char) : Option (Token × Nat) :=
  match cs with
  | ')' :: _ => some (.ParClose, 1)
  | _ => none

/-- `scan_par_open`: a single `(`. -/
def scan_par_open (cs : List Char) : Option (Token × Nat) :=
  match cs with
  | '(' :: _ => some (.ParOpen, 1)
  | _ => none

/-- The successful scanner results at the current position, in the source's
scanner-list order (`run_scanners` attempts each scanner independently on a
fresh reader and `filter_map`s the failures away). -/
def scanner_results (cs : List Char) : List (Token × Nat) :=
  [scan_symbol cs, scan_string_literal cs, scan_integer cs, scan_float cs, scan_true cs,
    scan_quote cs, scan_dot cs, scan_nil cs, scan_par_close cs, scan_par_open cs].filterMap id

/-- Rust `Iterator::max_by_key`: the maximum by key, the **last** of several
equally-maximal elements. -/
def max_by_key_last : List (Token × Nat) → Option (Token × Nat) :=
  List.foldl
    (fun acc p =>
      match acc with
      | none => some p
      | some q => if q.2 ≤ p.2 then some p else some q)
    none

/-- `TokenStream::run_scanners`: longest match wins; ties go to the
later-listed scanner. -/
def run_scanners (cs : List Char) : Option (Token × Nat) :=
  max_by_key_last (scanner_results cs)

/-- Rust `char::is_whitespace` (Unicode White_Space; this model covers the
ASCII whitespace that can occur in the verified inputs). -/
def isWhitespaceChar (c : Char) : Bool :=
  c == ' ' || c == '\t' || c == '\n' || c == '\r'

/-- The token stream of `TokenStream::next`, iterated to the end: skip
whitespace, scan one token, drain the consumed characters, repeat.  When no
scanner matches, the stream yields its single terminal
`TokenizerError::UnmatchedSequence` and then ends; this model returns the
scanned tokens together with the unscannable residue (empty exactly when the
whole input tokenized cleanly). -/
def tokenize_all : Nat → List Char → List Token × List Char
  | 0, cs => ([], cs)
  | fuel + 1, cs =>
    let cs2 := cs.dropWhile isWhitespaceChar
    match run_scanners cs2 with
    | some (t, n) =>
      let (ts, rest) := tokenize_all fuel (cs2.drop n)
      (t :: ts, rest)
    | none => ([], cs2)

/-! ## Concrete host universes used by witnesses and counterexamples -/

/-- A host universe with one trivial host type (used where the claim does not
depend on foreign data). -/
def U0 : HostUniverse where
  Idx := Unit
  deceq := inferInstance
  types := fun _ => { Val := Unit, eqFn := fun _ _ => true, cmpFn := fun _ _ => some .eq }

/-- A host universe whose single host type has a non-reflexive `PartialEq`,
exactly the shape Rust's blanket `ForeignData` impl admits (`f64` with `NaN`
is such a host type: `NaN == NaN` is `false`). -/
def UNaN : HostUniverse where
  Idx := Unit
  deceq := inferInstance
  types := fun _ => { Val := Unit, eqFn := fun _ _ => false, cmpFn := fun _ _ => none }

/-- A host universe with two distinct host types (an `Int`-like and a
`String`-like one), for exercising dynamic-type mismatches. -/
def UPair : HostUniverse where
  Idx := Bool
  deceq := inferInstance
  types := fun b =>
    if b then
      { Val := Int, eqFn := fun a c => a == c, cmpFn := fun a c => some (compare a c) }
    else
      { Val := String, eqFn := fun a c => a == c, cmpFn := fun a c => some (compare a c) }

/-- `Environment::default`: a root environment whose current layer is the
prelude, with an empty shared layer (passed alongside) and no outer
environment. -/
def default_environment {U : HostUniverse} : Environment U :=
  .mk mk_prelude none

/-- Whether a value is a `Cell` or `Nil`, i.e. a value the `CellIterator` can
keep walking. -/
def isCellOrNil {U : HostUniverse} : Expression U → Bool
  | .Cell _ _ => true
  | .Nil => true
  | _ => false

/-- Whether a value is numeric (`Integer` or `Float`) for the arithmetic
prelude procedures. -/
def isNumber {U : HostUniverse} : Expression U → Bool
  | .Integer _ => true
  | .Float _ => true
  | _ => false

/-- Whether a value is the `ForeignExpression` variant. -/
def isForeign {U : HostUniverse} : Expression U → Bool
  | .ForeignExpression _ => true
  | _ => false

/-! ## Shared helper lemmas -/

/-- Writing a key to a layer makes that key resolve to the written value. -/
theorem layer_get_set_self {U : HostUniverse} (l : EnvironmentLayer U) (k : String)
    (v : Expression U) : EnvironmentLayer.get (EnvironmentLayer.set l k v) k = some v := by
  simp [EnvironmentLayer.set, EnvironmentLayer.get]

/-! ## Claim C2 -/

/-- Claim C2 (code_bug): the claim — every failure of evaluation or of a
prelude procedure is an error value, never a process abort, the only fatal
exceptions being stack exhaustion and reentrant shared-layer mutation — is
the spec's explicit safety design, but `prelude_div` performs the unchecked
Rust `i64` division `a / b`, which panics on a zero divisor.  Evaluating
`(/ 1 0)` in the default environment aborts the process with Rust's panic
message instead of returning a value or an `EvalError`. -/
theorem claim_c2_div_aborts :
    eval 9 (default_environment (U := U0)) []
        (.Cell (.Symbol "/") (.Cell (.Integer 1) (.Cell (.Integer 0) .Nil)))
      = .abort "attempt to divide by zero" := rfl

/-! ## Claim C7 -/

/-- Claim C7 counterexample: decoding a Pair chain **deeper than one cell** to
a 2-tuple is claimed to be rejected with a typed error, but the source's
`TryFrom<Expression> for (Expression, Expression)` accepts any `Cell`
whatsoever: on `(1 2)` (a two-cell chain) it succeeds with the head and the
rest of the chain instead of failing. -/
theorem claim_c7_counterexample :
    expr_to_pair (U := U0) (.Cell (.Integer 1) (.Cell (.Integer 2) .Nil))
        = .ok (.Integer 1, .Cell (.Integer 2) .Nil)
    ∧ expr_to_pair (U := U0) (.Cell (.Integer 1) (.Cell (.Integer 2) .Nil))
        ≠ .error (.TypeError "Expression must be a Cell") := by
  refine ⟨rfl, ?_⟩
  intro h
  exact Except.noConfusion h

/-- Claim C7 (amended): decoding a proper list to a fixed-size n-array fails
with an arity error carrying the expected count `N` and the actual count
whenever the length is not `N`; and decoding to a 2-tuple succeeds exactly on
a `Pair`, yielding its head and its (arbitrary, possibly chained) tail — a
non-Pair value is rejected with a `TypeError`, but a deeper chain is accepted
as head plus chained tail. -/
theorem claim_c7_theorem {U : HostUniverse} :
    (∀ (N : Nat) (e : Expression U) (l : List (Expression U)),
      expr_to_list e = .ok l → l.length ≠ N →
      expr_to_array N e = .error (.ArgumentError
        ("Expected " ++ toString N ++ " arguments, got " ++ toString l.length)))
    ∧ (∀ e a b : Expression U, expr_to_pair e = .ok (a, b) ↔ e = .Cell a b) := by
  constructor
  · intro N e l h hne
    simp [expr_to_array, h, hne]
  · intro e a b
    cases e <;> simp [expr_to_pair]

/-- Claim C7 witness: the amended theorem applied at the two-element proper
list decoded as a 3-array, and at a literal dotted pair. -/
theorem claim_c7_witness :
    expr_to_array (U := U0) 3 (exprOfList [.Integer 1, .Integer 2])
        = .error (.ArgumentError ("Expected " ++ toString 3 ++ " arguments, got " ++ toString 2))
    ∧ (expr_to_pair (U := U0) (.Cell (.Integer 1) (.Integer 2)) = .ok (.Integer 1, .Integer 2)
        ↔ (Expression.Cell (.Integer 1) (.Integer 2) : Expression U0)
            = .Cell (.Integer 1) (.Integer 2)) :=
  ⟨(claim_c7_theorem (U := U0)).1 3 (exprOfList [.Integer 1, .Integer 2])
      [.Integer 1, .Integer 2] rfl (by decide),
   (claim_c7_theorem (U := U0)).2 (.Cell (.Integer 1) (.Integer 2)) (.Integer 1) (.Integer 2)⟩

/-! ## Claim C3 -/

/-- Claim C3 counterexample: the claim promises that recovery yields a value
"equal (by the host type's own equality) to the original", but the blanket
`ForeignData` impl admits host types whose `PartialEq` is not reflexive (Rust
`f64` is one: it satisfies every capability bound, yet `NaN == NaN` is
`false`).  In the universe `UNaN` of one such host type, wrapping a value and
recovering it through the typed accessor for the same type succeeds — and the
recovered value (the original itself) is *not* equal to the original by the
host type's own equality. -/
theorem claim_c3_counterexample :
    try_from_foreign (U := UNaN) () (wrap (U := UNaN) () ()) = .ok ()
    ∧ (UNaN.types ()).eqFn () () = false :=
  ⟨rfl, rfl⟩

/-- Claim C3 (amended): wrapping a host value and recovering it through the
typed accessor for the same type succeeds and yields exactly the original
value (hence a value equal by the host type's own equality whenever that
equality is reflexive at the value); attempting recovery as a different host
type, or from a non-Foreign value, yields a `TypeError`.  All three operations
are total functions (no panic). -/
theorem claim_c3_theorem {U : HostUniverse} :
    (∀ (i : U.Idx) (v : (U.types i).Val), try_from_foreign i (wrap i v) = .ok v)
    ∧ (∀ (i j : U.Idx) (v : (U.types i).Val), i ≠ j →
        try_from_foreign j (wrap i v)
          = .error (.TypeError "Expression is not a ForeignDataWrapper"))
    ∧ (∀ (j : U.Idx) (e : Expression U), isForeign e = false →
        try_from_foreign j e
          = .error (.TypeError "Expression is not a ForeignDataWrapper")) := by
  refine ⟨?_, ?_, ?_⟩
  · intro i v
    simp only [try_from_foreign, wrap, downcast]
    rcases hd : U.deceq i i with hne | heq
    · exact absurd rfl hne
    · simp only [hd]
  · intro i j v hne
    simp only [try_from_foreign, wrap, downcast]
    rcases hd : U.deceq i j with h | h
    · simp only [hd]
    · exact absurd h hne
  · intro j e hf
    cases e <;> simp_all [isForeign, try_from_foreign]

/-- Claim C3 witness: the amended theorem applied in the two-host-type
universe `UPair`: an `Int` host value round-trips, recovery at the `String`
host type fails with a `TypeError`, and recovery from a non-Foreign value
fails with a `TypeError`. -/
theorem claim_c3_witness :
    try_from_foreign (U := UPair) true (wrap (U := UPair) true ((5 : Int) : (UPair.types true).Val))
        = .ok ((5 : Int) : (UPair.types true).Val)
    ∧ try_from_foreign (U := UPair) false (wrap (U := UPair) true ((5 : Int) : (UPair.types true).Val))
        = .error (.TypeError "Expression is not a ForeignDataWrapper")
    ∧ try_from_foreign (U := UPair) true (.Integer 3)
        = .error (.TypeError "Expression is not a ForeignDataWrapper") :=
  ⟨(claim_c3_theorem (U := UPair)).1 true ((5 : Int) : (UPair.types true).Val),
   (claim_c3_theorem (U := UPair)).2.1 true false ((5 : Int) : (UPair.types true).Val)
     (by intro h; exact Bool.noConfusion h),
   (claim_c3_theorem (U := UPair)).2.2 true (.Integer 3) rfl⟩

/-! ## Claim C4 -/

/-- Claim C4: for every two erased Foreign values whose dynamic host types
differ, equality-through-erasure returns `false` and
ordering-through-erasure returns no ordering; both are total functions of any
pair of Foreign values (no panic, no error). -/
theorem claim_c4_theorem {U : HostUniverse} (a b : ForeignDataStore U) (h : a.1 ≠ b.1) :
    eq_impl a b = false ∧ cmp_impl a b = none := by
  constructor
  · simp only [eq_impl]
    rcases hd : U.deceq b.1 a.1 with hne | heq
    · simp only [hd]
    · exact absurd heq.symm h
  · simp only [cmp_impl]
    rcases hd : U.deceq b.1 a.1 with hne | heq
    · simp only [hd]
    · exact absurd heq.symm h

/-- Claim C4 witness: the theorem applied to an `Int`-typed and a
`String`-typed erased value of the universe `UPair`. -/
theorem claim_c4_witness :
    eq_impl (U := UPair) ⟨true, ((5 : Int) : (UPair.types true).Val)⟩
        ⟨false, (("a" : String) : (UPair.types false).Val)⟩ = false
    ∧ cmp_impl (U := UPair) ⟨true, ((5 : Int) : (UPair.types true).Val)⟩
        ⟨false, (("a" : String) : (UPair.types false).Val)⟩ = none :=
  claim_c4_theorem (U := UPair) ⟨true, ((5 : Int) : (UPair.types true).Val)⟩
    ⟨false, (("a" : String) : (UPair.types false).Val)⟩
    (by intro h; exact Bool.noConfusion h)

/-! ## Claim C5 -/

/-- An exhausted `CellIterator` (state `None`) yields nothing on every
subsequent step. -/
theorem iterOut_none {U : HostUniverse} : ∀ k : Nat, iterOut (U := U) none k = [] := by
  intro k
  induction k with
  | zero => rfl
  | succ n ih => simpa [iterOut, CellIterator.next] using ih

/-- A `CellIterator` sitting on `Nil` yields nothing on every subsequent
step. -/
theorem iterOut_nil {U : HostUniverse} : ∀ k : Nat, iterOut (U := U) (some .Nil) k = [] := by
  intro k
  cases k with
  | zero => rfl
  | succ n => simp [iterOut, CellIterator.next, iterOut_none]

/-- Claim C5: over a Nil-terminated chain of `n` Pairs the `CellIterator`
yields exactly the `n` heads as `Ok` items in head-to-tail order and then
yields nothing on every subsequent step (the `+ k` slack); over a chain whose
final tail is neither `Nil` nor a Pair it yields the `Ok` heads of the proper
prefix, then exactly one `Err(TypeError)`, and then yields nothing on every
subsequent step. -/
theorem claim_c5_theorem {U : HostUniverse} :
    (∀ (l : List (Expression U)) (k : Nat),
      iterOut (some (chainOf l .Nil)) (l.length + k) = l.map Except.ok)
    ∧ (∀ (l : List (Expression U)) (t : Expression U), isCellOrNil t = false → ∀ k : Nat,
      iterOut (some (chainOf l t)) (l.length + 1 + k)
        = l.map Except.ok ++ [Except.error (.TypeError "Expected a cell or nil")]) := by
  constructor
  · intro l
    induction l with
    | nil =>
      intro k
      simpa [chainOf] using iterOut_nil (U := U) k
    | cons e rest ih =>
      intro k
      have harith : (e :: rest).length + k = (rest.length + k) + 1 := by
        simp [List.length_cons]
        omega
      rw [harith]
      simp [chainOf, iterOut, CellIterator.next, ih k]
  · intro l t ht
    induction l with
    | nil =>
      intro k
      have harith : ([] : List (Expression U)).length + 1 + k = k + 1 := by
        simp
        omega
      rw [harith]
      cases t <;> simp_all [isCellOrNil, chainOf, iterOut, CellIterator.next, iterOut_none]
    | cons e rest ih =>
      intro k
      have harith : (e :: rest).length + 1 + k = (rest.length + 1 + k) + 1 := by
        simp [List.length_cons]
        omega
      rw [harith]
      simp [chainOf, iterOut, CellIterator.next, ih k]

/-- Claim C5 witness: the theorem applied to the proper chain `(1 2)` driven
for 5 steps and to the malformed chain `(1 . 7)`-with-a-head driven for 4
steps. -/
theorem claim_c5_witness :
    iterOut (U := U0) (some (chainOf [.Integer 1, .Integer 2] .Nil)) 5
        = [Except.ok (.Integer 1), Except.ok (.Integer 2)]
    ∧ iterOut (U := U0) (some (chainOf [.Integer 1] (.Integer 7))) 4
        = [Except.ok (.Integer 1), Except.error (.TypeError "Expected a cell or nil")] := by
  constructor
  · simpa using (claim_c5_theorem (U := U0)).1 [.Integer 1, .Integer 2] 3
  · simpa using (claim_c5_theorem (U := U0)).2 [.Integer 1] (.Integer 7) rfl 2

/-! ## Claim C1 -/

/-- Claim C1 counterexample: the claim says each argument expression is
evaluated **before** being bound, but `dispatch_anonymous_function` binds the
raw argument expressions and lets symbol resolution evaluate them at use.
Calling `(lambda (x) x)` on the quoted symbol `'a` in an empty environment
distinguishes the two: the source binds `x ↦ 'a` and returns the symbol `a`
(the quote is stripped when `x` resolves and its value is re-evaluated),
whereas the claim's call-by-value semantics (`dispatch_by_value`, written from
the claim's words) evaluates `'a` to the symbol `a` first, so the body's
lookup of `x` re-evaluates the symbol `a` and fails with `SymbolNotBound`. -/
theorem claim_c1_counterexample :
    dispatch_anonymous_function 9 (.mk [] none : Environment U0) [] ["x"] (.Symbol "x")
        (.Cell (.Quote (.Symbol "a")) .Nil)
      = .ok (.Symbol "a") []
    ∧ dispatch_by_value 9 (.mk [] none : Environment U0) [] ["x"] (.Symbol "x")
        (.Cell (.Quote (.Symbol "a")) .Nil)
      = .err (.SymbolNotBound "a") []
    ∧ (EvalResult.ok (.Symbol "a") [] : EvalResult U0) ≠ .err (.SymbolNotBound "a") [] := by
  refine ⟨rfl, rfl, ?_⟩
  intro h
  exact EvalResult.noConfusion h

/-- Claim C1 (amended): for a call of an anonymous function whose argument
list is a proper Nil-terminated list, if the list's length differs from the
number of parameter symbols evaluation returns an `ArgumentError` carrying
both counts; otherwise the body is evaluated in the caller's environment
extended with one fresh layer binding each parameter symbol to the
corresponding **unevaluated** argument expression (arguments are evaluated
later, when a parameter symbol is resolved, by `eval`'s re-evaluation of
resolved values). -/
theorem claim_c1_theorem {U : HostUniverse} (fuel : Nat) (env : Environment U)
    (sh : EnvironmentLayer U) (argument_symbols : List String) (body args : Expression U)
    (argList : List (Expression U)) (h : expr_to_list args = .ok argList) :
    dispatch_anonymous_function (fuel + 1) env sh argument_symbols body args =
      if argList.length = argument_symbols.length then
        eval fuel (env.overlay (bind_arguments argList argument_symbols)) sh body
      else
        .err (.ArgumentError ("Exprected " ++ toString argument_symbols.length ++
          " arguments, got " ++ toString argList.length)) sh := by
  simp only [dispatch_anonymous_function, h]
  by_cases hlen : argList.length = argument_symbols.length
  · simp [hlen]
  · simp [hlen]

/-- Claim C1 witness: the amended theorem applied to a matching two-argument
call (which reduces to evaluation of the body in the overlaid environment)
and to an arity-mismatched call (which yields the `ArgumentError` with both
counts). -/
theorem claim_c1_witness :
    dispatch_anonymous_function 5 (.mk [] none : Environment U0) [] ["x", "y"] (.Symbol "y")
        (exprOfList [.Integer 1, .Integer 2])
      = eval 4 ((Environment.mk [] none : Environment U0).overlay
          (bind_arguments [.Integer 1, .Integer 2] ["x", "y"])) [] (.Symbol "y")
    ∧ dispatch_anonymous_function 5 (.mk [] none : Environment U0) [] ["x"] (.Symbol "x")
        (exprOfList [.Integer 1, .Integer 2])
      = .err (.ArgumentError ("Exprected " ++ toString 1 ++ " arguments, got " ++ toString 2))
          [] := by
  constructor
  · simpa using claim_c1_theorem (U := U0) 4 (.mk [] none) [] ["x", "y"] (.Symbol "y")
      (exprOfList [.Integer 1, .Integer 2]) [.Integer 1, .Integer 2] rfl
  · simpa using claim_c1_theorem (U := U0) 4 (.mk [] none) [] ["x"] (.Symbol "x")
      (exprOfList [.Integer 1, .Integer 2]) [.Integer 1, .Integer 2] rfl

/-! ## Claim C8 -/

/-- The fold underlying `max_by_key_last` (Rust `Iterator::max_by_key`)
returns an element whose key is at least every listed key and at least the
initial accumulator's key. -/
theorem max_by_key_foldl_le :
    ∀ (l : List (Token × Nat)) (acc : Option (Token × Nat)) (r : Token × Nat),
      List.foldl
        (fun acc p =>
          match acc with
          | none => some p
          | some q => if q.2 ≤ p.2 then some p else some q)
        acc l = some r →
      (∀ p ∈ l, p.2 ≤ r.2) ∧ (∀ q, acc = some q → q.2 ≤ r.2) := by
  intro l
  induction l with
  | nil =>
    intro acc r h
    simp only [List.foldl_nil] at h
    constructor
    · intro p hp
      exact absurd hp (List.not_mem_nil p)
    · intro q hq
      rw [hq] at h
      cases h
      exact Nat.le_refl _
  | cons p l ih =>
    intro acc r h
    simp only [List.foldl_cons] at h
    rcases ih _ r h with ⟨hl, hacc⟩
    cases acc with
    | none =>
      have hp : p.2 ≤ r.2 := hacc p rfl
      refine ⟨?_, ?_⟩
      · intro x hx
        rcases List.mem_cons.mp hx with hx | hx
        · rw [hx]
          exact hp
        · exact hl x hx
      · intro q hq
        exact absurd hq (by simp)
    | some q0 =>
      by_cases hle : q0.2 ≤ p.2
      · have hp : p.2 ≤ r.2 := hacc p (by simp [hle])
        refine ⟨?_, ?_⟩
        · intro x hx
          rcases List.mem_cons.mp hx with hx | hx
          · rw [hx]
            exact hp
          · exact hl x hx
        · intro q hq
          injection hq with hq
          rw [← hq]
          exact Nat.le_trans hle hp
      · have hq0 : q0.2 ≤ r.2 := hacc q0 (by simp [hle])
        have hp : p.2 ≤ r.2 := by
          have : p.2 ≤ q0.2 := by omega
          exact Nat.le_trans this hq0
        refine ⟨?_, ?_⟩
        · intro x hx
          rcases List.mem_cons.mp hx with hx | hx
          · rw [hx]
            exact hp
          · exact hl x hx
        · intro q hq
          injection hq with hq
          rw [← hq]
          exact hq0

/-- Claim C8: the tokenizer resolves a lexeme matched by several scanners by
longest match (`run_scanners` returns a head count at least every successful
scanner's head count), with ties won by the later-listed keyword scanners over
the generic symbol scanner: the bare text `nil` tokenizes to the Nil keyword
token and `true` to the True keyword token (never to a `Symbol` of the same
spelling), while the strictly longer symbol spelling `nil?` is won outright by
the symbol scanner's longer match. -/
theorem claim_c8_theorem :
    run_scanners "nil".data = some (Token.Nil, 3)
    ∧ run_scanners "true".data = some (Token.True, 4)
    ∧ run_scanners "nil?".data = some (Token.Symbol "nil?", 4)
    ∧ tokenize_all 2 "nil".data = ([Token.Nil], [])
    ∧ tokenize_all 2 "true".data = ([Token.True], [])
    ∧ tokenize_all 2 "nil?".data = ([Token.Symbol "nil?"], [])
    ∧ (∀ (cs : List Char) (t : Token) (n : Nat), run_scanners cs = some (t, n) →
        ∀ p ∈ scanner_results cs, p.2 ≤ n) := by
  refine ⟨by decide, by decide, by decide, by decide, by decide, by decide, ?_⟩
  intro cs t n h p hp
  simp only [run_scanners, max_by_key_last] at h
  exact (max_by_key_foldl_le (scanner_results cs) none (t, n) h).1 p hp

/-- Claim C8 witness: the longest-match conjunct applied at the input `nil`,
where the symbol scanner's competing match of length 3 is indeed bounded by
the winning keyword match's length. -/
theorem claim_c8_witness :
    (Token.Symbol "nil", 3).2 ≤ 3 :=
  claim_c8_theorem.2.2.2.2.2.2 "nil".data Token.Nil 3 claim_c8_theorem.1
    (Token.Symbol "nil", 3) (by decide)

/-! ## Claim C9 -/

/-- Claim C9: after evaluating both operands, the prelude arithmetic
procedure (`prelude_add`, the cited representative) produces an `Integer` on
two `Integer` operands, a `Float` whenever at least one operand is a `Float`,
and a `NotANumber` error carrying the offending value when an evaluated
operand is neither (a non-numeric left operand fails before the right operand
is evaluated).  In particular `(+ 1 2)` over the default procedure set
evaluates to `3`, and `(+ 1 "a")` fails with a not-a-number error naming the
string value. -/
theorem claim_c9_theorem {U : HostUniverse} :
    (∀ (fuel : Nat) (env : Environment U) (sh sh1 sh2 : EnvironmentLayer U)
        (a b : Expression U) (ia ib : Int) (fa fb : Rat),
      (eval fuel env sh a = .ok (.Integer ia) sh1 →
        (eval fuel env sh1 b = .ok (.Integer ib) sh2 →
          prelude_add (fuel + 1) env sh (.Cell a (.Cell b .Nil)) = .ok (.Integer (ia + ib)) sh2)
        ∧ (eval fuel env sh1 b = .ok (.Float fb) sh2 →
          prelude_add (fuel + 1) env sh (.Cell a (.Cell b .Nil))
            = .ok (.Float ((ia : Rat) + fb)) sh2)
        ∧ (∀ x, eval fuel env sh1 b = .ok x sh2 → isNumber x = false →
          prelude_add (fuel + 1) env sh (.Cell a (.Cell b .Nil)) = .err (.NotANumber x) sh2))
      ∧ (eval fuel env sh a = .ok (.Float fa) sh1 →
        (eval fuel env sh1 b = .ok (.Float fb) sh2 →
          prelude_add (fuel + 1) env sh (.Cell a (.Cell b .Nil)) = .ok (.Float (fa + fb)) sh2)
        ∧ (eval fuel env sh1 b = .ok (.Integer ib) sh2 →
          prelude_add (fuel + 1) env sh (.Cell a (.Cell b .Nil))
            = .ok (.Float (fa + (ib : Rat))) sh2)
        ∧ (∀ x, eval fuel env sh1 b = .ok x sh2 → isNumber x = false →
          prelude_add (fuel + 1) env sh (.Cell a (.Cell b .Nil)) = .err (.NotANumber x) sh2))
      ∧ (∀ x, eval fuel env sh a = .ok x sh1 → isNumber x = false →
        prelude_add (fuel + 1) env sh (.Cell a (.Cell b .Nil)) = .err (.NotANumber x) sh1))
    ∧ eval 9 (default_environment (U := U)) []
        (.Cell (.Symbol "+") (.Cell (.Integer 1) (.Cell (.Integer 2) .Nil)))
      = .ok (.Integer 3) []
    ∧ eval 9 (default_environment (U := U)) []
        (.Cell (.Symbol "+") (.Cell (.Integer 1) (.Cell (.String "a") .Nil)))
      = .err (.NotANumber (.String "a")) [] := by
  refine ⟨?_, rfl, rfl⟩
  intro fuel env sh sh1 sh2 a b ia ib fa fb
  refine ⟨?_, ?_, ?_⟩
  · intro ha
    refine ⟨?_, ?_, ?_⟩
    · intro hb
      simp [prelude_add, expr_to_array2, expr_to_list, ha, hb]
    · intro hb
      simp [prelude_add, expr_to_array2, expr_to_list, ha, hb]
    · intro x hb hx
      cases x <;> simp_all [prelude_add, expr_to_array2, expr_to_list, isNumber]
  · intro ha
    refine ⟨?_, ?_, ?_⟩
    · intro hb
      simp [prelude_add, expr_to_array2, expr_to_list, ha, hb]
    · intro hb
      simp [prelude_add, expr_to_array2, expr_to_list, ha, hb]
    · intro x hb hx
      cases x <;> simp_all [prelude_add, expr_to_array2, expr_to_list, isNumber]
  · intro x ha hx
    cases x <;> simp_all [prelude_add, expr_to_array2, expr_to_list, isNumber]

/-- Claim C9 witness: the promotion table applied to `1 + 2` (Integer),
`1 + 3.0` (Float promotion), and `1 + "a"` (`NotANumber` carrying the
string). -/
theorem claim_c9_witness :
    prelude_add 4 (.mk [] none : Environment U0) []
        (.Cell (.Integer 1) (.Cell (.Integer 2) .Nil))
      = .ok (.Integer 3) []
    ∧ prelude_add 4 (.mk [] none : Environment U0) []
        (.Cell (.Integer 1) (.Cell (.Float 3) .Nil))
      = .ok (.Float ((1 : Rat) + 3)) []
    ∧ prelude_add 4 (.mk [] none : Environment U0) []
        (.Cell (.Integer 1) (.Cell (.String "a") .Nil))
      = .err (.NotANumber (.String "a")) [] := by
  refine ⟨?_, ?_, ?_⟩
  · exact (((claim_c9_theorem (U := U0)).1 3 (.mk [] none) [] [] [] (.Integer 1) (.Integer 2)
      1 2 0 0).1 rfl).1 rfl
  · exact (((claim_c9_theorem (U := U0)).1 3 (.mk [] none) [] [] [] (.Integer 1) (.Float 3)
      1 0 0 3).1 rfl).2.1 rfl
  · exact (((claim_c9_theorem (U := U0)).1 3 (.mk [] none) [] [] [] (.Integer 1) (.String "a")
      1 0 0 0).1 rfl).2.2 (.String "a") rfl rfl

/-! ## Claim C6 -/

/-- Claim C6 counterexample: the claim promises a shared-layer write is
visible via `Environment::get` in **every** environment of the family, but
`get` consults the current lexical layer before the shared layer.  In a root
environment whose current layer binds `x ↦ 1`, the top-level form
`(set 'x 2)` writes `x ↦ 2` to the shared layer, yet a later top-level form
`x` evaluated in that same environment still reads the lexical `1`. -/
theorem claim_c6_counterexample :
    eval 9 (.mk [("x", .Integer 1)] none : Environment U0) []
        (.Cell (.Function .setFn) (.Cell (.Quote (.Symbol "x")) (.Cell (.Integer 2) .Nil)))
      = .ok (.Integer 2) [("x", .Integer 2)]
    ∧ eval 9 (.mk [("x", .Integer 1)] none : Environment U0) [("x", .Integer 2)] (.Symbol "x")
      = .ok (.Integer 1) [("x", .Integer 2)]
    ∧ (Expression.Integer 1 : Expression U0) ≠ .Integer 2 := by
  refine ⟨rfl, rfl, ?_⟩
  simp

/-- Claim C6 (amended): a binding written through the global-mutation
primitive (`prelude_set` writing the shared layer) during evaluation of one
top-level form is visible, via environment lookup, to every later form
evaluated in any environment of the same family **whose current layer does
not itself bind that symbol** — the shared layer takes precedence over every
outer layer, so visibility is independent of lexical depth, but the current
layer shadows it; and a binding introduced by `let` lives only in the `let`
body's overlay: after the `let` form returns, lookup of the let-bound symbol
in the original environment fails. -/
theorem claim_c6_theorem {U : HostUniverse} (fuel : Nat) (env : Environment U)
    (sh sh' : EnvironmentLayer U) (sym : String) (e v : Expression U)
    (hset : prelude_set fuel env sh (.Cell (.Quote (.Symbol sym)) (.Cell e .Nil))
      = .ok v sh') :
    (∀ env2 : Environment U, EnvironmentLayer.get env2.layer sym = none →
      Environment.get env2 sh' sym = some v)
    ∧ eval 9 (.mk [] none : Environment U) []
        (.Cell (.Function .letFn)
          (.Cell (.Quote (.Cell (.Cell (.Symbol "x") (.Integer 1)) .Nil))
            (.Cell (.Symbol "x") .Nil)))
      = .ok (.Integer 1) []
    ∧ eval 9 (.mk [] none : Environment U) [] (.Symbol "x")
      = .err (.SymbolNotBound "x") [] := by
  refine ⟨?_, rfl, rfl⟩
  intro env2 h2
  cases fuel with
  | zero => exact absurd hset (by simp [prelude_set])
  | succ f =>
    cases f with
    | zero => exact absurd hset (by simp [prelude_set, expr_to_array2, expr_to_list, eval])
    | succ g =>
      have h1 : prelude_set (g + 1 + 1) env sh
          (.Cell (.Quote (.Symbol sym)) (.Cell e .Nil)) =
          match eval (g + 1) env sh e with
          | .ok v2 sh2 => .ok v2 (Environment.shared_set sh2 sym v2)
          | r => r := rfl
      rw [h1] at hset
      cases he : eval (g + 1) env sh e with
      | ok v2 sh2 =>
        rw [he] at hset
        simp only [EvalResult.ok.injEq] at hset
        obtain ⟨h3, h4⟩ := hset
        rw [← h4, ← h3]
        simp [Environment.get, h2, Environment.shared_set, layer_get_set_self]
      | err er sh2 =>
        rw [he] at hset
        simp at hset
      | abort m =>
        rw [he] at hset
        simp at hset
      | fuelOut =>
        rw [he] at hset
        simp at hset

/-- Claim C6 witness: `(set 'y 7)` run through `prelude_set` in a root
environment; the written binding is then visible from a *different*,
lexically nested environment of the family whose outer layer even shadows
`y` — the shared layer wins over the outer chain. -/
theorem claim_c6_witness :
    Environment.get (.mk [] (some (.mk [("y", .Integer 0)] none)) : Environment U0)
        [("y", .Integer 7)] "y" = some (.Integer 7) := by
  have h := claim_c6_theorem (U := U0) 3 (.mk [] none) [] [("y", Expression.Integer 7)] "y"
    (.Integer 7) (.Integer 7) rfl
  exact h.1 (.mk [] (some (.mk [("y", .Integer 0)] none))) rfl

/-! ## Claim C10 -/

/-- Claim C10: evaluation cannot disturb the lexical layers.  In the model the
Rust `&Environment` is an immutable value and the only state `eval` threads is
the shared layer, so the claim is captured by three facts: (i) the fresh
layers pushed for `let` bindings and call frames are new overlays whose outer
chain is the given environment, unchanged; (ii) whatever shared layer an
evaluation returns, a symbol bound in an environment's current lexical layer
still resolves to the same value afterwards; (iii) any change of
`Environment::get`'s result across an evaluation is attributable to the
shared layer: the lexical layers are untouched and the affected symbol is not
lexically bound in the current layer. -/
theorem claim_c10_theorem {U : HostUniverse} :
    (∀ (env : Environment U) (l : EnvironmentLayer U),
      (env.overlay l).layer = l ∧ (env.overlay l).outer = some env)
    ∧ (∀ (fuel : Nat) (env : Environment U) (sh sh' : EnvironmentLayer U)
        (e r : Expression U) (s : String) (v : Expression U),
      eval fuel env sh e = .ok r sh' →
      EnvironmentLayer.get env.layer s = some v →
      Environment.get env sh' s = some v)
    ∧ (∀ (env : Environment U) (sh sh' : EnvironmentLayer U) (s : String),
      Environment.get env sh s ≠ Environment.get env sh' s →
      EnvironmentLayer.get sh s ≠ EnvironmentLayer.get sh' s ∧
      EnvironmentLayer.get env.layer s = none) := by
  refine ⟨?_, ?_, ?_⟩
  · intro env l
    exact ⟨rfl, rfl⟩
  · intro fuel env sh sh' e r s v _ hcur
    simp [Environment.get, hcur]
  · intro env sh sh' s hne
    cases hl : EnvironmentLayer.get env.layer s with
    | some v => exact absurd (by simp [Environment.get, hl]) hne
    | none =>
      refine ⟨?_, rfl⟩
      intro hsh
      apply hne
      simp [Environment.get, hl, hsh]

/-- Claim C10 witness: evaluation of a literal under a populated shared layer
leaves a current-layer binding resolving to its lexical value, and a lookup
change between two shared layers pins the difference on the shared layer. -/
theorem claim_c10_witness :
    Environment.get (.mk [("x", Expression.Integer 1)] none : Environment U0)
        [("y", .Integer 9)] "x" = some (.Integer 1)
    ∧ (EnvironmentLayer.get ([] : EnvironmentLayer U0) "x"
          ≠ EnvironmentLayer.get [("x", Expression.Integer 1)] "x"
        ∧ EnvironmentLayer.get (Environment.mk [] none : Environment U0).layer "x" = none) := by
  constructor
  · exact claim_c10_theorem.2.1 1 (.mk [("x", .Integer 1)] none) [("y", .Integer 9)]
      [("y", .Integer 9)] (.Integer 5) (.Integer 5) "x" (.Integer 1) rfl rfl
  · refine claim_c10_theorem.2.2 (.mk [] none) [] [("x", .Integer 1)] "x" ?_
    intro h
    exact Option.noConfusion h

end Lispers
